import Mathlib

/-!
Verification of the scraping/downloading scripts of this repository.

File contents are modelled as lists of characters (bytes), the file system
seen by one worker as an `Option Content` at the single output path the
worker touches, and the network as an oracle giving the content that a
fetch attempt leaves at that path.  Each Python worker is embedded as a
Lean function over these data; the theorems at the end settle the frozen
claims about them.
-/

/-- File or string content: a list of characters standing for the bytes. -/
abbrev Content := List Char
/-- ASCII lower-casing of a single byte, the semantics of `bytes.lower()` /
`str.lower()` on ASCII data. -/
def lowerChar (c : Char) : Char :=
  if 'A' ≤ c ∧ c ≤ 'Z' then Char.ofNat (c.toNat + 32) else c
/-- Boolean test that `p` is a leading block of `s` (auxiliary for the
substring test used to embed Python's `in` on bytes/str). -/
def isPrefixOfB : Content → Content → Bool
  | [], _ => true
  | _ :: _, [] => false
  | a :: as, b :: bs => a == b && isPrefixOfB as bs
/-- Embedding of Python's substring operator `pat in s` on bytes/str. -/
def containsSub (pat : Content) : Content → Bool
  | [] => pat.isEmpty
  | c :: rest => isPrefixOfB pat (c :: rest) || containsSub pat rest
/-- Characters forbidden in filenames, the character class of the
`re.sub` regular expression in `sanitize` / `sanitize_filename`. -/
def bannedChars : List Char := ['\\', '/', '*', '?', ':', '\"', '<', '>', '|']
/-- Per-character action of `re.sub` with a character class. -/
def sanitizeChar (c : Char) : Char := if c ∈ bannedChars then '_' else c
/-- Embedding of `sanitize` (SEI and fail.retry scripts) and
`sanitize_filename` (Batteries script): both are
`re.sub` with the same character class, replacing each banned
character with an underscore. -/
def sanitize (s : Content) : Content := s.map sanitizeChar

namespace Curl

/-!
Embedding of the curl-based Wiley worker
(`Solid_Electrolyte_Interphase.keywords.willey/03_download_pdfs_wiley.py` and
`Batteries_and_Supercaps_WILLEY/03_download_pdfs_wiley.fail.retry.py`; the two
differ only in how many leading bytes `check_pdf_valid` reads, 100 vs 200,
kept here as the parameter `hb`).

The single output path of one unit of work is `outdir/sanitize(doi).pdf`; its
state is an `Option Content` (`none` when no file is present).  A curl
invocation is absorbed into the oracle `fetch : Nat → Option Content`, giving
the file state the attempt leaves at the output path (`none` when curl left
nothing readable, which Python surfaces as the `open` call raising).
-/
/-- Magic bytes of a PDF file checked by `check_pdf_valid`. -/
def pdfMagic : Content := "%PDF".data
/-- HTML marker rejected by `check_pdf_valid`. -/
def htmlTag : Content := "<html".data
/-- Acceptance condition of `check_pdf_valid` on the bytes it read:
`b"%PDF" in head and b"<html" not in head.lower()`. -/
def headOk (head : Content) : Bool :=
  containsSub pdfMagic head && ! containsSub htmlTag (head.map lowerChar)
/-- Embedding of `check_pdf_valid`: reads the first `hb` bytes; on the
accepting condition returns `True` keeping the file, otherwise removes the
file and returns `False`; any exception (file absent) also yields `False`.
The returned pair is (boolean result, file state afterwards). -/
def check_pdf_valid (hb : Nat) (file : Option Content) : Bool × Option Content :=
  match file with
  | none => (false, none)
  | some c => if headOk (c.take hb) then (true, some c) else (false, none)
/-- Per-item result row appended to the results table:
`{"idx": idx, "doi": doi, "status": status}`. -/
structure Row where
  idx : Nat
  doi : Content
  status : String
deriving DecidableEq, Repr
/-- Observable outcome of one worker run: the result row, the final file
state at the output path, and how many curl invocations were made. -/
structure RunResult where
  row : Row
  file : Option Content
  fetches : Nat
deriving DecidableEq, Repr
/-- Embedding of the `for attempt in range(3)` retry loop of `download_one`:
run curl, then `check_pdf_valid`; on success return the `success` row, else
retry; after the attempts are exhausted return the `failed` row.  `t` is the
index of the next attempt and the second argument the attempts remaining. -/
def attemptLoop (hb idx : Nat) (doi : Content) (fetch : Nat → Option Content) :
    Nat → Nat → RunResult
  | _, 0 => ⟨⟨idx, doi, "failed"⟩, none, 0⟩
  | t, r + 1 =>
    match check_pdf_valid hb (fetch t) with
    | (true, kept) => ⟨⟨idx, doi, "success"⟩, kept, 1⟩
    | (false, _) =>
      let out := attemptLoop hb idx doi fetch (t + 1) r
      ⟨out.row, out.file, out.fetches + 1⟩
/-- Embedding of `download_one`: if the output file exists, is larger than
10000 bytes and passes `check_pdf_valid`, return the `exists` row with no
fetch; otherwise run the retry loop (3 attempts). -/
def download_one (hb idx : Nat) (doi : Content) (init : Option Content)
    (fetch : Nat → Option Content) : RunResult :=
  match init with
  | some c =>
    if 10000 < c.length then
      match check_pdf_valid hb (some c) with
      | (true, kept) => ⟨⟨idx, doi, "exists"⟩, kept, 0⟩
      | (false, _) => attemptLoop hb idx doi fetch 0 3
    else attemptLoop hb idx doi fetch 0 3
  | none => attemptLoop hb idx doi fetch 0 3
/-- Embedding of the collection in `main`: one `download_one` call per DOI
(index `i+1`), the rows gathered into the results table that is written to
the results CSV. -/
def mainResults (hb : Nat) (dois : List Content) (init : Content → Option Content)
    (fetch : Content → Nat → Option Content) : List Row :=
  dois.enum.map fun pr => (download_one hb (pr.1 + 1) pr.2 (init pr.2) (fetch pr.2)).row
end Curl

namespace Req

/-!
Embedding of the requests-based Wiley worker
(`Batteries_and_Supercaps_WILLEY/03_download_pdfs_wiley.py`).

The HTTP response of attempt `t` is given by the oracle
`fetch : Nat → Option Resp`; `none` means the `s.get` call raised, which
aborts the whole `try` block and returns the result as initialised
(`status = "failed"`, `file = None`).  Only a successful attempt writes the
output path; a failed attempt writes the separate `fail_...html` path, which
leaves the output path untouched.
-/
/-- The parts of an HTTP response the worker looks at: status code,
`Content-Type` header and body bytes. -/
structure Resp where
  status_code : Nat
  ctype : Content
  body : Content
deriving DecidableEq, Repr
/-- Success test of one attempt:
`r.status_code == 200 and "pdf" in ctype` with
`ctype = r.headers.get("Content-Type", "").lower()`. -/
def respOk (r : Resp) : Bool :=
  r.status_code == 200 && containsSub "pdf".data (r.ctype.map lowerChar)
/-- Per-item result row:
`{"idx": idx, "doi": doi, "status": status, "file": file}`. -/
structure Row where
  idx : Nat
  doi : Content
  status : String
  file : Option Content
deriving DecidableEq, Repr
/-- Observable outcome of one worker run: the result row, the final file
state at the output path, and how many HTTP requests were made. -/
structure RunResult where
  row : Row
  file : Option Content
  fetches : Nat
deriving DecidableEq, Repr
/-- Embedding of the `for attempt in range(3)` loop inside the `try` block:
each attempt issues one request; a 200/pdf response writes the body to the
output path and breaks with `success`; any other response leaves the output
path as it was (`cur`) and retries; a raised exception ends the loop with the
result still `failed`. -/
def reqLoop (idx : Nat) (doi outPath : Content) (fetch : Nat → Option Resp) :
    Nat → Nat → Option Content → RunResult
  | _, 0, cur => ⟨⟨idx, doi, "failed", none⟩, cur, 0⟩
  | t, r + 1, cur =>
    match fetch t with
    | none => ⟨⟨idx, doi, "failed", none⟩, cur, 1⟩
    | some resp =>
      if respOk resp then ⟨⟨idx, doi, "success", some outPath⟩, some resp.body, 1⟩
      else
        let out := reqLoop idx doi outPath fetch (t + 1) r cur
        ⟨out.row, out.file, out.fetches + 1⟩
/-- Embedding of `download_one` (requests variant): the output path is
`outdir/sanitize_filename(doi + ".pdf")`; if a file larger than 5000 bytes
already exists there, return the `exists` row with no request, else run the
retry loop. -/
def download_one (idx : Nat) (doi outdir : Content) (init : Option Content)
    (fetch : Nat → Option Resp) : RunResult :=
  let outPath := outdir ++ '/' :: sanitize (doi ++ ".pdf".data)
  match init with
  | some c =>
    if 5000 < c.length then ⟨⟨idx, doi, "exists", some outPath⟩, some c, 0⟩
    else reqLoop idx doi outPath fetch 0 3 (some c)
  | none => reqLoop idx doi outPath fetch 0 3 none
/-- Embedding of the collection in `main`: one `download_one` call per DOI,
rows gathered into the mapping CSV. -/
def mainResults (dois : List Content) (outdir : Content)
    (init : Content → Option Content) (fetch : Content → Nat → Option Resp) : List Row :=
  dois.enum.map fun pr => (download_one (pr.1 + 1) pr.2 outdir (init pr.2) (fetch pr.2)).row
end Req

namespace Collect

/-!
Embedding of `detect_captcha` from
`Batteries_and_Supercaps_WILLEY/01_collect_html_pages_playwright_persistent.py`.

A page is observed through `page.content()` (`none` when the call raises, in
which case the `except` branch is taken and `False` returned) and the two
`query_selector` probes for recaptcha/turnstile iframes.
-/
/-- Observable state of a Playwright page for `detect_captcha`. -/
structure Page where
  content : Option Content
  recaptchaIframe : Bool
  turnstileIframe : Bool
/-- The fixed trigger substrings searched in the lowercased page HTML. -/
def triggers : List Content :=
  ["verifying you are human".data,
   "please enable javascript and cookies to continue".data,
   "cf-turnstile".data, "g-recaptcha".data, "h-captcha".data, "captcha".data]
/-- Embedding of `detect_captcha`: lowercase the page HTML, return `True` on
any trigger substring or on a recaptcha/turnstile iframe, `False` otherwise,
and `False` when reading the content raises. -/
def detect_captcha (p : Page) : Bool :=
  match p.content with
  | none => false
  | some html =>
    let lhtml := html.map lowerChar
    if triggers.any (fun t => containsSub t lhtml) then true
    else if p.recaptchaIframe || p.turnstileIframe then true
    else false
end Collect

namespace Mdpi

/-!
Embedding of the MDPI per-item worker `download_pdf`
(`MDPI/03_pdf_download.py`).

The worker launches a headless browser in a fresh temp directory, navigates
to the article page and then the PDF URL (two `driver.get` calls), waits for
the download, and moves the resulting file into the output directory.  Its
interaction with the outside world is collected in `Env`: whether each
navigation raises, whether the download-completion wait succeeds, which
`.pdf` file the browser left in the temp directory, and which files already
sit in the output directory (the code never reads the latter before
fetching — the field is carried to state that independence).
-/
/-- Per-item result row of the mapping CSV:
`{"idx", "pdf_url", "volume", "issue", "article_id", "downloaded_file"}`.
There is no status field. -/
structure Row where
  idx : Nat
  pdf_url : Content
  volume : Content
  issue : Content
  article_id : Content
  downloaded_file : Option Content
deriving DecidableEq, Repr
/-- Environment of one worker run. -/
structure Env where
  pageGetRaises : Bool
  pdfGetRaises : Bool
  downloadCompletes : Bool
  downloadedPdf : Option Content
  existingOutFiles : List Content
deriving DecidableEq, Repr
/-- Match of the regular expression
`/(\d{1,3})/(\d{1,3})/(\d{1,5})/pdf` at the start of `s`: a slash, a digit
run of the stated bounded length (greedy matching of a digit class followed
by `/` forces the run to be maximal), twice more, then the literal `/pdf`. -/
def matchInfoAt (s : Content) : Option (Content × Content × Content) :=
  match s with
  | '/' :: rest =>
    let d1 := rest.takeWhile Char.isDigit
    let r1 := rest.drop d1.length
    if 1 ≤ d1.length ∧ d1.length ≤ 3 then
      match r1 with
      | '/' :: rest2 =>
        let d2 := rest2.takeWhile Char.isDigit
        let r2 := rest2.drop d2.length
        if 1 ≤ d2.length ∧ d2.length ≤ 3 then
          match r2 with
          | '/' :: rest3 =>
            let d3 := rest3.takeWhile Char.isDigit
            let r3 := rest3.drop d3.length
            if 1 ≤ d3.length ∧ d3.length ≤ 5 ∧ isPrefixOfB "/pdf".data r3 = true then
              some (d1, d2, d3)
            else none
          | _ => none
        else none
      | _ => none
    else none
  | _ => none
/-- Leftmost match of the regular expression anywhere in the string,
the `re.search` of `parse_mdpi_pdf_info`. -/
def searchInfo : Content → Option (Content × Content × Content)
  | [] => none
  | c :: rest =>
    match matchInfoAt (c :: rest) with
    | some g => some g
    | none => searchInfo rest
/-- Embedding of `parse_mdpi_pdf_info`: the three captured groups, or
`("NA", "NA", "NA")` when the pattern does not occur. -/
def parse_mdpi_pdf_info (url : Content) : Content × Content × Content :=
  match searchInfo url with
  | some g => g
  | none => ("NA".data, "NA".data, "NA".data)
/-- Embedding of `download_pdf`: parse the URL, open the article page and
then the PDF URL with the browser (counted as fetches in the second
component), and record the downloaded file name if the download completed
and a `.pdf` file appeared; every failure path yields the same row with
`downloaded_file = None`.  No field of the environment is consulted before
the navigations, and `existingOutFiles` is never consulted at all. -/
def download_pdf (idx : Nat) (pdf_url : Content) (env : Env) : Row × Nat :=
  let info := parse_mdpi_pdf_info pdf_url
  if env.pageGetRaises then
    (⟨idx, pdf_url, info.1, info.2.1, info.2.2, none⟩, 1)
  else if env.pdfGetRaises then
    (⟨idx, pdf_url, info.1, info.2.1, info.2.2, none⟩, 2)
  else
    match env.downloadCompletes, env.downloadedPdf with
    | true, some f => (⟨idx, pdf_url, info.1, info.2.1, info.2.2, some f⟩, 2)
    | _, _ => (⟨idx, pdf_url, info.1, info.2.1, info.2.2, none⟩, 2)
end Mdpi

namespace Split

/-!
Embedding of `MDPI/split_pdf_folders.py`: the sorted `.pdf` listing of the
source directory is walked once; each file is moved into folder `PDF_part`
(1-based), `count` is incremented, and when `count` reaches
`per_part = ceil(total / NUM_PARTS)` the folder number advances (but never
past `NUM_PARTS`).  `assignLoop` returns the (file, folder-number) pairs in
walking order.
-/
/-- The fixed folder count `NUM_PARTS = 10`. -/
def NUM_PARTS : Nat := 10
/-- Per-folder quota `math.ceil(total / NUM_PARTS)`. -/
def perPart (total : Nat) : Nat := (total + NUM_PARTS - 1) / NUM_PARTS
/-- One pass of the moving loop: the current file goes to folder `part`;
afterwards `count + 1` is compared with the quota `p` and the folder number
advances while it is still below `NUM_PARTS`. -/
def assignLoop {α : Type} (p : Nat) : Nat → Nat → List α → List (α × Nat)
  | _, _, [] => []
  | part, count, f :: rest =>
    if p ≤ count + 1 ∧ part < NUM_PARTS then
      (f, part) :: assignLoop p (part + 1) 0 rest
    else
      (f, part) :: assignLoop p part (count + 1) rest
/-- The whole script on the sorted file listing: quota from the total count,
then the moving loop starting at folder 1 with count 0. -/
def split_pdf_folders (files : List String) : List (String × Nat) :=
  assignLoop (perPart files.length) 1 0 files
end Split

namespace Parse

/-!
Embedding of the duplicate-dropping step shared by the two parse scripts
(`Batteries_and_Supercaps_WILLEY/02_parse_html_to_csv.py` and
`MDPI/02_extract_metadata.py`): after collecting the record list, both run
`df.drop_duplicates(subset=["doi"])` before writing the CSV, which keeps the
first row of each distinct `doi` value and drops every later row with the
same value.  A row is its `doi` cell (possibly missing) plus the remaining
cells, abstracted as one payload.
-/
/-- One record of the metadata table: the `doi` column (`none` for a missing
value) and the remaining columns. -/
structure Row where
  doi : Option String
  payload : String
deriving DecidableEq, Repr
/-- The left-to-right scan of `drop_duplicates(subset=["doi"], keep="first")`:
keep a row when its `doi` has not been seen. -/
def dedupGo (seen : List (Option String)) : List Row → List Row
  | [] => []
  | r :: rest =>
    if r.doi ∈ seen then dedupGo seen rest
    else r :: dedupGo (r.doi :: seen) rest
/-- Embedding of `df.drop_duplicates(subset=["doi"])` on the record list. -/
def drop_duplicates_doi (rows : List Row) : List Row := dedupGo [] rows
end Parse

/-- Sample DOI for concrete instantiations (contains a slash). -/
def sampleDoi : Content := "10.1002/batt.202400001".data

/-- Oracle of a curl that never leaves a readable file. -/
def sampleNoFetch : Nat → Option Content := fun _ => none

/-- Oracle of a fetch that always receives a Cloudflare-style HTML page. -/
def sampleHtmlFetch : Nat → Option Content := fun _ => some "<html>Access Denied".data

/-- A valid PDF content of 10001 bytes (above the 10000-byte threshold). -/
def sampleBigPdf : Content := "%PDF".data ++ List.replicate 9997 'a'

/-- A valid PDF content of 5001 bytes (above the 5000-byte threshold). -/
def sampleMedPdf : Content := "%PDF".data ++ List.replicate 4997 'a'

/-- Oracle of an HTTP session whose every request raises. -/
def sampleNoResp : Nat → Option Req.Resp := fun _ => none

/-- A PDF content of 204 bytes. -/
def samplePdfA : Content := "%PDF".data ++ List.replicate 200 'x'

/-- A PDF content of 304 bytes sharing its first 100 bytes with `samplePdfA`. -/
def samplePdfB : Content := "%PDF".data ++ List.replicate 300 'x'

/-- A sorted listing of 13 PDF filenames. -/
def sampleFiles : List String :=
  ["a.pdf", "b.pdf", "c.pdf", "d.pdf", "e.pdf", "f.pdf", "g.pdf", "h.pdf", "i.pdf",
   "j.pdf", "k.pdf", "l.pdf", "m.pdf"]

/-- A concrete MDPI PDF URL. -/
def sampleMdpiUrl : Content := "https://www.mdpi.com/1996-1073/18/5/1234/pdf".data

/-- An MDPI worker environment in which a finished PDF already sits in the
output directory and the browser download succeeds again. -/
def sampleMdpiEnv : Mdpi.Env :=
  ⟨false, false, true, some "energies-18-01234.pdf".data, ["energies-18-01234.pdf".data]⟩

theorem isPrefixOfB_iff (p : Content) : ∀ s : Content, isPrefixOfB p s = true ↔ p <+: s := by
  induction p with
  | nil => intro s; simp [isPrefixOfB]
  | cons a as ih =>
    intro s
    cases s with
    | nil => simp [isPrefixOfB]
    | cons b bs =>
      simp [isPrefixOfB, List.cons_prefix_cons, ih, Bool.and_eq_true, beq_iff_eq]
theorem containsSub_iff (p : Content) : ∀ s : Content, containsSub p s = true ↔ p <:+: s := by
  intro s
  induction s with
  | nil => simp [containsSub, List.isEmpty_iff]
  | cons c rest ih =>
    simp [containsSub, Bool.or_eq_true, isPrefixOfB_iff, ih, List.infix_cons_iff]

namespace Curl

theorem attemptLoop_status (hb idx : Nat) (doi : Content) (fetch : Nat → Option Content) :
    ∀ r t, (attemptLoop hb idx doi fetch t r).row.status = "success" ∨
      (attemptLoop hb idx doi fetch t r).row.status = "failed" := by
  intro r
  induction r with
  | zero => intro t; right; rfl
  | succ n ih =>
    intro t
    simp only [attemptLoop]
    rcases h : check_pdf_valid hb (fetch t) with ⟨b, f⟩
    cases b with
    | true => left; rfl
    | false => simpa using ih (t + 1)
theorem attemptLoop_fetches_le (hb idx : Nat) (doi : Content) (fetch : Nat → Option Content) :
    ∀ r t, (attemptLoop hb idx doi fetch t r).fetches ≤ r := by
  intro r
  induction r with
  | zero => intro t; exact Nat.le_refl 0
  | succ n ih =>
    intro t
    simp only [attemptLoop]
    rcases h : check_pdf_valid hb (fetch t) with ⟨b, f⟩
    cases b with
    | true => exact Nat.succ_le_succ (Nat.zero_le n)
    | false => simpa using Nat.succ_le_succ (ih (t + 1))
theorem attemptLoop_all_fail (hb idx : Nat) (doi : Content) (fetch : Nat → Option Content)
    (h : ∀ t, (check_pdf_valid hb (fetch t)).1 = false) :
    ∀ r t, attemptLoop hb idx doi fetch t r = ⟨⟨idx, doi, "failed"⟩, none, r⟩ := by
  intro r
  induction r with
  | zero => intro t; rfl
  | succ n ih =>
    intro t
    simp only [attemptLoop]
    rcases hc : check_pdf_valid hb (fetch t) with ⟨b, f⟩
    have hb' : b = false := by have hh := h t; rw [hc] at hh; exact hh
    subst hb'
    simp [ih (t + 1)]
theorem download_one_status (hb idx : Nat) (doi : Content) (init : Option Content)
    (fetch : Nat → Option Content) :
    (download_one hb idx doi init fetch).row.status = "success" ∨
    (download_one hb idx doi init fetch).row.status = "exists" ∨
    (download_one hb idx doi init fetch).row.status = "failed" := by
  have hl := attemptLoop_status hb idx doi fetch 3 0
  cases init with
  | none => simp only [download_one]; tauto
  | some c =>
    simp only [download_one]
    by_cases hlen : 10000 < c.length
    · simp only [if_pos hlen]
      rcases hc : check_pdf_valid hb (some c) with ⟨b, f⟩
      cases b with
      | true => right; left; rfl
      | false =>
        show (attemptLoop hb idx doi fetch 0 3).row.status = "success" ∨
          (attemptLoop hb idx doi fetch 0 3).row.status = "exists" ∨
          (attemptLoop hb idx doi fetch 0 3).row.status = "failed"
        tauto
    · simp only [if_neg hlen]; tauto
theorem download_one_fetches_le (hb idx : Nat) (doi : Content) (init : Option Content)
    (fetch : Nat → Option Content) :
    (download_one hb idx doi init fetch).fetches ≤ 3 := by
  have hl := attemptLoop_fetches_le hb idx doi fetch 3 0
  cases init with
  | none => simpa [download_one] using hl
  | some c =>
    simp only [download_one]
    by_cases hlen : 10000 < c.length
    · simp only [if_pos hlen]
      rcases hc : check_pdf_valid hb (some c) with ⟨b, f⟩
      cases b with
      | true => exact Nat.zero_le 3
      | false => exact hl
    · simpa [if_neg hlen] using hl
theorem attemptLoop_failed_file (hb idx : Nat) (doi : Content) (fetch : Nat → Option Content) :
    ∀ r t, (attemptLoop hb idx doi fetch t r).row.status = "failed" →
      (attemptLoop hb idx doi fetch t r).file = none := by
  intro r
  induction r with
  | zero => intro t _; rfl
  | succ n ih =>
    intro t
    simp only [attemptLoop]
    rcases hc : check_pdf_valid hb (fetch t) with ⟨b, f⟩
    cases b with
    | true => intro hcontra; simp at hcontra
    | false => simpa using ih (t + 1)
theorem download_one_failed_file (hb idx : Nat) (doi : Content) (init : Option Content)
    (fetch : Nat → Option Content) :
    (download_one hb idx doi init fetch).row.status = "failed" →
    (download_one hb idx doi init fetch).file = none := by
  have hl := attemptLoop_failed_file hb idx doi fetch 3 0
  cases init with
  | none => simpa [download_one] using hl
  | some c =>
    simp only [download_one]
    by_cases hlen : 10000 < c.length
    · simp only [if_pos hlen]
      rcases hc : check_pdf_valid hb (some c) with ⟨b, f⟩
      cases b with
      | true => intro hcontra; simp at hcontra
      | false => exact hl
    · simpa [if_neg hlen] using hl

end Curl

namespace Req

theorem reqLoop_status (idx : Nat) (doi outPath : Content) (fetch : Nat → Option Resp) :
    ∀ r t cur, (reqLoop idx doi outPath fetch t r cur).row.status = "success" ∨
      (reqLoop idx doi outPath fetch t r cur).row.status = "failed" := by
  intro r
  induction r with
  | zero => intro t cur; right; rfl
  | succ n ih =>
    intro t cur
    simp only [reqLoop]
    rcases hf : fetch t with _ | resp
    · right; rfl
    · by_cases hok : respOk resp = true
      · simp only [if_pos hok]; left; trivial
      · simp only [if_neg hok]; simpa using ih (t + 1) cur
theorem reqLoop_fetches_le (idx : Nat) (doi outPath : Content) (fetch : Nat → Option Resp) :
    ∀ r t cur, (reqLoop idx doi outPath fetch t r cur).fetches ≤ r := by
  intro r
  induction r with
  | zero => intro t cur; exact Nat.le_refl 0
  | succ n ih =>
    intro t cur
    simp only [reqLoop]
    rcases hf : fetch t with _ | resp
    · exact Nat.succ_le_succ (Nat.zero_le n)
    · by_cases hok : respOk resp = true
      · simp only [if_pos hok]; exact Nat.succ_le_succ (Nat.zero_le n)
      · simp only [if_neg hok]; simpa using Nat.succ_le_succ (ih (t + 1) cur)
theorem reqLoop_all_fail (idx : Nat) (doi outPath : Content) (fetch : Nat → Option Resp)
    (h : ∀ t resp, fetch t = some resp → respOk resp = false) :
    ∀ r t cur, (reqLoop idx doi outPath fetch t r cur).row.status = "failed" := by
  intro r
  induction r with
  | zero => intro t cur; rfl
  | succ n ih =>
    intro t cur
    simp only [reqLoop]
    rcases hf : fetch t with _ | resp
    · rfl
    · have hok : respOk resp = false := h t resp hf
      simp only [hok, Bool.false_eq_true, if_false]
      simpa using ih (t + 1) cur
theorem req_download_one_status (idx : Nat) (doi outdir : Content) (init : Option Content)
    (fetch : Nat → Option Resp) :
    (download_one idx doi outdir init fetch).row.status = "success" ∨
    (download_one idx doi outdir init fetch).row.status = "exists" ∨
    (download_one idx doi outdir init fetch).row.status = "failed" := by
  cases init with
  | none =>
    simp only [download_one]
    have hl := reqLoop_status idx doi (outdir ++ '/' :: sanitize (doi ++ ".pdf".data)) fetch 3 0 none
    tauto
  | some c =>
    simp only [download_one]
    by_cases hlen : 5000 < c.length
    · simp only [if_pos hlen]; right; left; trivial
    · simp only [if_neg hlen]
      have hl := reqLoop_status idx doi (outdir ++ '/' :: sanitize (doi ++ ".pdf".data)) fetch 3 0 (some c)
      tauto
theorem req_download_one_fetches_le (idx : Nat) (doi outdir : Content) (init : Option Content)
    (fetch : Nat → Option Resp) :
    (download_one idx doi outdir init fetch).fetches ≤ 3 := by
  cases init with
  | none =>
    simpa [download_one] using
      reqLoop_fetches_le idx doi (outdir ++ '/' :: sanitize (doi ++ ".pdf".data)) fetch 3 0 none
  | some c =>
    simp only [download_one]
    by_cases hlen : 5000 < c.length
    · simp only [if_pos hlen]; exact Nat.zero_le 3
    · simp only [if_neg hlen]
      exact reqLoop_fetches_le idx doi (outdir ++ '/' :: sanitize (doi ++ ".pdf".data)) fetch 3 0 (some c)

end Req

namespace Mdpi

theorem download_pdf_fetches (idx : Nat) (url : Content) (env : Env) :
    1 ≤ (download_pdf idx url env).2 ∧ (download_pdf idx url env).2 ≤ 2 := by
  simp only [download_pdf]
  by_cases h1 : env.pageGetRaises = true
  · simp [h1]
  · simp only [Bool.not_eq_true] at h1
    by_cases h2 : env.pdfGetRaises = true
    · simp [h1, h2]
    · simp only [Bool.not_eq_true] at h2
      rcases hd : env.downloadCompletes with _ | _ <;>
        rcases hf : env.downloadedPdf with _ | f <;> simp [h1, h2, hd, hf]
theorem download_pdf_ignores_existing (idx : Nat) (url : Content) (env : Env)
    (l₁ l₂ : List Content) :
    download_pdf idx url { env with existingOutFiles := l₁ } =
      download_pdf idx url { env with existingOutFiles := l₂ } := by
  simp only [download_pdf]

end Mdpi

namespace Split

theorem assignLoop_map_fst {α : Type} (p : Nat) :
    ∀ (files : List α) (part count : Nat),
      (assignLoop p part count files).map Prod.fst = files := by
  intro files
  induction files with
  | nil => intro part count; rfl
  | cons f rest ih =>
    intro part count
    simp only [assignLoop]
    by_cases hcond : p ≤ count + 1 ∧ part < NUM_PARTS
    · simp [if_pos hcond, ih]
    · simp [if_neg hcond, ih]
theorem assignLoop_map_snd {α : Type} (p : Nat) (hp : 0 < p) :
    ∀ (files : List α) (g part count : Nat),
      (g / p ≤ 8 → part = g / p + 1 ∧ count = g % p) →
      (8 < g / p → part = 10) →
      (assignLoop p part count files).map Prod.snd =
        (List.range files.length).map (fun i => min ((g + i) / p) 9 + 1) := by
  intro files
  induction files with
  | nil => intro g part count _ _; rfl
  | cons f rest ih =>
    intro g part count h1 h2
    have hmod : g % p < p := Nat.mod_lt _ hp
    have hgdm : p * (g / p) + g % p = g := Nat.div_add_mod g p
    have hhead : part = min (g / p) 9 + 1 := by
      by_cases hg : g / p ≤ 8
      · have hq := h1 hg
        have : min (g / p) 9 = g / p := by omega
        omega
      · push_neg at hg
        have hq := h2 hg
        have : min (g / p) 9 = 9 := by omega
        omega
    have hshift :
        List.map ((fun i => min ((g + i) / p) 9 + 1) ∘ Nat.succ) (List.range rest.length)
          = List.map (fun i => min ((g + 1 + i) / p) 9 + 1) (List.range rest.length) :=
      List.map_congr_left fun i _ => by
        simp only [Function.comp]
        have hgi : g + Nat.succ i = g + 1 + i := by omega
        rw [hgi]
    simp only [assignLoop, NUM_PARTS, List.length_cons, List.range_succ_eq_map,
      List.map_cons, List.map_map]
    by_cases hcond : p ≤ count + 1 ∧ part < 10
    · -- the folder advances: part < 10 forces g / p ≤ 8 and count = g % p,
      -- and the quota being reached forces g % p + 1 = p
      have hgle : g / p ≤ 8 := by
        by_contra hgt
        push_neg at hgt
        have := h2 hgt
        omega
      obtain ⟨hpart, hcount⟩ := h1 hgle
      have hfull : g % p + 1 = p := by omega
      have hg1 : g + 1 = p * (g / p + 1) := by
        have : p * (g / p + 1) = p * (g / p) + p := Nat.mul_succ p (g / p)
        omega
      have hdiv1 : (g + 1) / p = g / p + 1 := by
        rw [hg1, Nat.mul_div_cancel_left _ hp]
      have hmod1 : (g + 1) % p = 0 := by
        rw [hg1, Nat.mul_mod_right]
      rw [if_pos hcond]
      simp only [List.map_cons]
      congr 1
      rw [hshift]
      refine ih (g + 1) (part + 1) 0 ?_ ?_
      · intro hle
        constructor
        · omega
        · omega
      · intro hgt
        omega
    · rw [if_neg hcond]
      simp only [List.map_cons]
      congr 1
      rw [hshift]
      by_cases hg : g / p ≤ 8
      · obtain ⟨hpart, hcount⟩ := h1 hg
        have hsmall : count + 1 < p := by
          rcases Nat.lt_or_ge (count + 1) p with h | h
          · exact h
          · exact absurd ⟨h, by omega⟩ hcond
        have hdiv1 : (g + 1) / p = g / p := by
          have hrw : g + 1 = p * (g / p) + (g % p + 1) := by omega
          rw [hrw, Nat.mul_add_div hp,
            Nat.div_eq_of_lt (show g % p + 1 < p by omega), Nat.add_zero]
        have hmod1 : (g + 1) % p = g % p + 1 := by
          have hrw : g + 1 = p * (g / p) + (g % p + 1) := by omega
          rw [hrw, Nat.mul_add_mod, Nat.mod_eq_of_lt (by omega)]
        refine ih (g + 1) part (count + 1) ?_ ?_
        · intro _
          constructor
          · omega
          · omega
        · intro hgt
          omega
      · push_neg at hg
        have hpart10 := h2 hg
        have hmono : g / p ≤ (g + 1) / p := Nat.div_le_div_right (Nat.le_succ g)
        refine ih (g + 1) part (count + 1) ?_ ?_
        · intro hle
          omega
        · intro _
          exact hpart10
theorem countP_range_le (q : Nat → Bool) (n a b : Nat)
    (h : ∀ i, i < n → q i = true → a ≤ i ∧ i < b) :
    (List.range n).countP q ≤ b - a := by
  rw [List.countP_eq_length_filter]
  have hnd : ((List.range n).filter q).Nodup :=
    List.Nodup.sublist (List.filter_sublist _) (List.nodup_range n)
  have hcard : ((List.range n).filter q).toFinset.card = ((List.range n).filter q).length :=
    List.toFinset_card_of_nodup hnd
  have hsub : ((List.range n).filter q).toFinset ⊆ Finset.Ico a b := by
    intro x hx
    rw [List.mem_toFinset] at hx
    have hq : q x = true := List.of_mem_filter hx
    have hr : x ∈ List.range n := List.mem_of_mem_filter hx
    rw [List.mem_range] at hr
    rw [Finset.mem_Ico]
    exact h x hr hq
  calc ((List.range n).filter q).length
      = ((List.range n).filter q).toFinset.card := hcard.symm
    _ ≤ (Finset.Ico a b).card := Finset.card_le_card hsub
    _ = b - a := Nat.card_Ico a b

end Split

namespace Parse

theorem mem_dedupGo (r : Row) :
    ∀ (rows : List Row) (seen : List (Option String)),
      r ∈ dedupGo seen rows ↔
        (r.doi ∉ seen ∧ rows.find? (fun x => x.doi == r.doi) = some r) := by
  intro rows
  induction rows with
  | nil => intro seen; simp [dedupGo]
  | cons r0 rest ih =>
    intro seen
    by_cases hseen : r0.doi ∈ seen
    · rw [dedupGo, if_pos hseen]
      by_cases hd : r0.doi = r.doi
      · rw [List.find?_cons_of_pos _ (by simp [hd])]
        constructor
        · intro hmem
          rw [ih seen] at hmem
          exact absurd (hd ▸ hseen) hmem.1
        · rintro ⟨hns, _⟩
          exact absurd (hd ▸ hseen) hns
      · rw [List.find?_cons_of_neg _ (by simp [hd])]
        exact ih seen
    · rw [dedupGo, if_neg hseen]
      by_cases hd : r0.doi = r.doi
      · rw [List.find?_cons_of_pos _ (by simp [hd])]
        simp only [List.mem_cons]
        constructor
        · rintro (heq | hmem)
          · subst heq
            exact ⟨hseen, rfl⟩
          · rw [ih (r0.doi :: seen)] at hmem
            have h1 := hmem.1
            rw [← hd] at h1
            exact absurd (List.mem_cons_self r0.doi seen) h1
        · rintro ⟨hns, hsome⟩
          have heq : r0 = r := by injection hsome
          exact Or.inl heq.symm
      · rw [List.find?_cons_of_neg _ (by simp [hd])]
        simp only [List.mem_cons]
        rw [ih (r0.doi :: seen)]
        constructor
        · rintro (heq | ⟨hns, hfind⟩)
          · exact absurd (by rw [heq]) hd
          · exact ⟨fun hc => hns (List.mem_cons_of_mem _ hc), hfind⟩
        · rintro ⟨hns, hfind⟩
          refine Or.inr ⟨?_, hfind⟩
          intro hc
          rcases List.mem_cons.mp hc with hc1 | hc2
          · exact hd hc1.symm
          · exact hns hc2
theorem nodup_dedupGo :
    ∀ (rows : List Row) (seen : List (Option String)),
      ((dedupGo seen rows).map Row.doi).Nodup ∧
        ∀ d ∈ (dedupGo seen rows).map Row.doi, d ∉ seen := by
  intro rows
  induction rows with
  | nil => intro seen; simp [dedupGo]
  | cons r0 rest ih =>
    intro seen
    by_cases hseen : r0.doi ∈ seen
    · rw [dedupGo, if_pos hseen]
      exact ih seen
    · rw [dedupGo, if_neg hseen]
      obtain ⟨hnd, hout⟩ := ih (r0.doi :: seen)
      simp only [List.map_cons, List.nodup_cons]
      refine ⟨⟨?_, hnd⟩, ?_⟩
      · intro hc
        exact hout _ hc (List.mem_cons_self _ _)
      · intro d hd
        rcases List.mem_cons.mp hd with h | h
        · exact h ▸ hseen
        · intro hc
          exact hout d h (List.mem_cons_of_mem _ hc)

end Parse


namespace Curl

theorem headOk_iff (h : Content) :
    headOk h = true ↔ (pdfMagic <:+: h ∧ ¬ htmlTag <:+: h.map lowerChar) := by
  rw [headOk, Bool.and_eq_true, containsSub_iff, Bool.not_eq_true', ← Bool.not_eq_true,
    containsSub_iff]

theorem check_pdf_valid_fst (hb : Nat) (c : Content) :
    (check_pdf_valid hb (some c)).1 = headOk (c.take hb) := by
  by_cases h : headOk (c.take hb) = true
  · simp [check_pdf_valid, h]
  · rw [Bool.not_eq_true] at h
    simp [check_pdf_valid, h]

end Curl

/-- C1: for every input DOI, the Wiley worker `download_one` returns a
per-item record whose status is exactly one of `success`, `exists` or
`failed`, and the results table holds one such record per input item — for
the curl-based workers (any head size `hb`) and for the requests-based
worker alike. -/
theorem c1_per_item_status_record
    (hb : Nat) (dois : List Content) (init : Content → Option Content)
    (fetch : Content → Nat → Option Content)
    (doisR : List Content) (outdir : Content) (initR : Content → Option Content)
    (fetchR : Content → Nat → Option Req.Resp) :
    (Curl.mainResults hb dois init fetch).length = dois.length ∧
    (∀ r ∈ Curl.mainResults hb dois init fetch,
      r.status = "success" ∨ r.status = "exists" ∨ r.status = "failed") ∧
    (Req.mainResults doisR outdir initR fetchR).length = doisR.length ∧
    (∀ r ∈ Req.mainResults doisR outdir initR fetchR,
      r.status = "success" ∨ r.status = "exists" ∨ r.status = "failed") := by
  refine ⟨?_, ?_, ?_, ?_⟩
  · simp [Curl.mainResults]
  · intro r hr
    rw [Curl.mainResults, List.mem_map] at hr
    obtain ⟨pr, _, hEq⟩ := hr
    rw [← hEq]
    exact Curl.download_one_status hb (pr.1 + 1) pr.2 (init pr.2) (fetch pr.2)
  · simp [Req.mainResults]
  · intro r hr
    rw [Req.mainResults, List.mem_map] at hr
    obtain ⟨pr, _, hEq⟩ := hr
    rw [← hEq]
    exact Req.req_download_one_status (pr.1 + 1) pr.2 outdir (initR pr.2) (fetchR pr.2)

theorem c1_per_item_status_record_witness :
    (Curl.mainResults 100 [sampleDoi] (fun _ => none) (fun _ => sampleHtmlFetch)).length = 1 ∧
    ((⟨1, sampleDoi, "failed"⟩ : Curl.Row).status = "success" ∨
     (⟨1, sampleDoi, "failed"⟩ : Curl.Row).status = "exists" ∨
     (⟨1, sampleDoi, "failed"⟩ : Curl.Row).status = "failed") := by
  have h := c1_per_item_status_record 100 [sampleDoi] (fun _ => none)
    (fun _ => sampleHtmlFetch) [] [] (fun _ => none) (fun _ => sampleNoResp)
  exact ⟨h.1, h.2.1 ⟨1, sampleDoi, "failed"⟩ (by decide)⟩

/-- C2: the retry loop of each download worker makes at most 3 retrieval
attempts (curl invocations or HTTP requests) and terminates; when no attempt
yields a valid result it returns the `failed` status after exactly those
attempts, and it never goes beyond the bound of 3. -/
theorem c2_retry_bounded_by_three
    (hb idx : Nat) (doi : Content) (init : Option Content) (fetch : Nat → Option Content)
    (idxR : Nat) (doiR outdir : Content) (initR : Option Content)
    (fetchR : Nat → Option Req.Resp) :
    (Curl.download_one hb idx doi init fetch).fetches ≤ 3 ∧
    ((∀ t, (Curl.check_pdf_valid hb (fetch t)).1 = false) →
      Curl.attemptLoop hb idx doi fetch 0 3 = ⟨⟨idx, doi, "failed"⟩, none, 3⟩) ∧
    (Req.download_one idxR doiR outdir initR fetchR).fetches ≤ 3 ∧
    ((∀ t resp, fetchR t = some resp → Req.respOk resp = false) →
      ∀ outPath cur, (Req.reqLoop idxR doiR outPath fetchR 0 3 cur).row.status = "failed") :=
  ⟨Curl.download_one_fetches_le hb idx doi init fetch,
   fun h => Curl.attemptLoop_all_fail hb idx doi fetch h 3 0,
   Req.req_download_one_fetches_le idxR doiR outdir initR fetchR,
   fun h outPath cur => Req.reqLoop_all_fail idxR doiR outPath fetchR h 3 0 cur⟩

theorem c2_retry_bounded_by_three_witness :
    Curl.attemptLoop 100 1 sampleDoi sampleNoFetch 0 3 = ⟨⟨1, sampleDoi, "failed"⟩, none, 3⟩ ∧
    (Req.reqLoop 1 sampleDoi "wiley_pdfs".data sampleNoResp 0 3 none).row.status = "failed" := by
  have h := c2_retry_bounded_by_three 100 1 sampleDoi none sampleNoFetch
    1 sampleDoi "wiley_pdfs".data none sampleNoResp
  exact ⟨h.2.1 (fun t => rfl),
    h.2.2.2 (fun t resp hr => Option.noConfusion hr) "wiley_pdfs".data none⟩

/-- C3: a unit of work is idempotent through its existence check: when the
output file exists and passes the worker's size/validity check, the worker
returns the `exists` status with zero fetches and leaves the file unchanged,
so a second run on the resulting state returns the same outcome as the
first (for the curl worker with its 10000-byte/`check_pdf_valid` check, and
for the requests worker with its 5000-byte size check). -/
theorem c3_exists_short_circuit_idempotent
    (hb idx : Nat) (doi : Content) (fetch : Nat → Option Content) (c : Content)
    (hlen : 10000 < c.length) (hvalid : Curl.headOk (c.take hb) = true)
    (idxR : Nat) (doiR outdir : Content) (fetchR : Nat → Option Req.Resp) (cR : Content)
    (hlenR : 5000 < cR.length) :
    Curl.download_one hb idx doi (some c) fetch = ⟨⟨idx, doi, "exists"⟩, some c, 0⟩ ∧
    Curl.download_one hb idx doi
        (Curl.download_one hb idx doi (some c) fetch).file fetch
      = Curl.download_one hb idx doi (some c) fetch ∧
    Req.download_one idxR doiR outdir (some cR) fetchR
      = ⟨⟨idxR, doiR, "exists", some (outdir ++ '/' :: sanitize (doiR ++ ".pdf".data))⟩,
          some cR, 0⟩ ∧
    Req.download_one idxR doiR outdir
        (Req.download_one idxR doiR outdir (some cR) fetchR).file fetchR
      = Req.download_one idxR doiR outdir (some cR) fetchR := by
  have h1 : Curl.download_one hb idx doi (some c) fetch = ⟨⟨idx, doi, "exists"⟩, some c, 0⟩ := by
    simp [Curl.download_one, if_pos hlen, Curl.check_pdf_valid, hvalid]
  have h3 : Req.download_one idxR doiR outdir (some cR) fetchR
      = ⟨⟨idxR, doiR, "exists", some (outdir ++ '/' :: sanitize (doiR ++ ".pdf".data))⟩,
          some cR, 0⟩ := by
    simp [Req.download_one, if_pos hlenR]
  refine ⟨h1, ?_, h3, ?_⟩
  · rw [h1]
    show Curl.download_one hb idx doi (some c) fetch = _
    rw [h1]
  · rw [h3]
    show Req.download_one idxR doiR outdir (some cR) fetchR = _
    rw [h3]

theorem c3_exists_short_circuit_idempotent_witness :
    Curl.download_one 100 7 sampleDoi (some sampleBigPdf) sampleNoFetch
      = ⟨⟨7, sampleDoi, "exists"⟩, some sampleBigPdf, 0⟩ ∧
    Req.download_one 7 sampleDoi "wiley_pdfs".data (some sampleMedPdf) sampleNoResp
      = ⟨⟨7, sampleDoi, "exists",
          some ("wiley_pdfs".data ++ '/' :: sanitize (sampleDoi ++ ".pdf".data))⟩,
          some sampleMedPdf, 0⟩ := by
  have hbig : sampleBigPdf.length = 10001 := by
    rw [sampleBigPdf, List.length_append, List.length_replicate]
    rfl
  have hmed : sampleMedPdf.length = 5001 := by
    rw [sampleMedPdf, List.length_append, List.length_replicate]
    rfl
  have h := c3_exists_short_circuit_idempotent 100 7 sampleDoi sampleNoFetch sampleBigPdf
    (by omega) (by decide) 7 sampleDoi "wiley_pdfs".data sampleNoResp sampleMedPdf (by omega)
  exact ⟨h.1, h.2.2.1⟩

/-- C4: `check_pdf_valid` decides by the first `hb` bytes alone (any two
files agreeing on them get the same verdict), and it accepts exactly when
those bytes contain the `%PDF` magic header and do not contain the bytes
`<html` case-insensitively. -/
theorem c4_pdf_validity_first_bytes (hb : Nat) (c : Content) :
    ((Curl.check_pdf_valid hb (some c)).1 = true ↔
      (Curl.pdfMagic <:+: c.take hb ∧ ¬ Curl.htmlTag <:+: (c.take hb).map lowerChar)) ∧
    (∀ c2 : Content, c.take hb = c2.take hb →
      (Curl.check_pdf_valid hb (some c)).1 = (Curl.check_pdf_valid hb (some c2)).1) := by
  constructor
  · rw [Curl.check_pdf_valid_fst, Curl.headOk_iff]
  · intro c2 he
    rw [Curl.check_pdf_valid_fst, Curl.check_pdf_valid_fst, he]

theorem c4_pdf_validity_first_bytes_witness :
    (Curl.check_pdf_valid 100 (some samplePdfA)).1 = (Curl.check_pdf_valid 100 (some samplePdfB)).1 :=
  (c4_pdf_validity_first_bytes 100 samplePdfA).2 samplePdfB (by decide)

/-- C5 counterexample: the MDPI worker `download_pdf` does not follow the
Wiley workers' pattern.  On a concrete input whose output directory already
holds the finished PDF, it still performs both browser navigations (2
fetches, not 0 as an existence check would give), makes a single download
attempt, and returns a row that has a `downloaded_file` field but no
success/exists/failed status at all. -/
theorem c5_mdpi_not_same_pattern_counterexample :
    sampleMdpiEnv.existingOutFiles ≠ [] ∧
    (Mdpi.download_pdf 1 sampleMdpiUrl sampleMdpiEnv).2 = 2 ∧
    ¬ (Mdpi.download_pdf 1 sampleMdpiUrl sampleMdpiEnv).2 = 0 ∧
    Mdpi.download_pdf 1 sampleMdpiUrl sampleMdpiEnv
      = (⟨1, sampleMdpiUrl, "18".data, "5".data, "1234".data,
          some "energies-18-01234.pdf".data⟩, 2) := by
  refine ⟨by decide, by decide, by decide, by decide⟩

/-- C5 (amended): only the two Wiley `download_one` workers implement the
fetch-with-retry pattern (existence check, at most 3 validated attempts,
per-item success/exists/failed status); the MDPI worker `download_pdf`
differs structurally: its result is the same whatever already sits in the
output directory, it always navigates the browser (at least one and at most
two page loads, a single download attempt with no retry loop), and its row
carries only a `downloaded_file` mapping, no status. -/
theorem c5_amended_worker_patterns
    (idx : Nat) (url : Content) (env : Mdpi.Env) (l₁ l₂ : List Content)
    (hb idxW : Nat) (doi : Content) (init : Option Content)
    (fetch : Nat → Option Content) :
    Mdpi.download_pdf idx url { env with existingOutFiles := l₁ }
      = Mdpi.download_pdf idx url { env with existingOutFiles := l₂ } ∧
    1 ≤ (Mdpi.download_pdf idx url env).2 ∧
    (Mdpi.download_pdf idx url env).2 ≤ 2 ∧
    (Curl.download_one hb idxW doi init fetch).fetches ≤ 3 ∧
    ((Curl.download_one hb idxW doi init fetch).row.status = "success" ∨
     (Curl.download_one hb idxW doi init fetch).row.status = "exists" ∨
     (Curl.download_one hb idxW doi init fetch).row.status = "failed") :=
  ⟨Mdpi.download_pdf_ignores_existing idx url env l₁ l₂,
   (Mdpi.download_pdf_fetches idx url env).1,
   (Mdpi.download_pdf_fetches idx url env).2,
   Curl.download_one_fetches_le hb idxW doi init fetch,
   Curl.download_one_status hb idxW doi init fetch⟩

/-- C6: `detect_captcha` returns `True` exactly when the page content was
readable and either its lowercased HTML contains one of the six fixed
trigger substrings or the page has a recaptcha/turnstile iframe; it returns
`False` otherwise, in particular whenever reading the content raises. -/
theorem c6_captcha_substring_iff (p : Collect.Page) :
    Collect.detect_captcha p = true ↔
      ∃ h, p.content = some h ∧
        ((∃ t ∈ Collect.triggers, t <:+: h.map lowerChar) ∨
          p.recaptchaIframe = true ∨ p.turnstileIframe = true) := by
  cases hc : p.content with
  | none =>
    simp only [Collect.detect_captcha, hc]
    constructor
    · intro hcontra
      exact absurd hcontra (by decide)
    · rintro ⟨h, hh, _⟩
      exact Option.noConfusion hh
  | some html =>
    simp only [Collect.detect_captcha, hc, Option.some.injEq]
    by_cases ha : Collect.triggers.any (fun t => containsSub t (html.map lowerChar)) = true
    · rw [if_pos ha]
      constructor
      · intro _
        refine ⟨html, rfl, Or.inl ?_⟩
        rw [List.any_eq_true] at ha
        obtain ⟨t, ht, hsub⟩ := ha
        exact ⟨t, ht, (containsSub_iff t (html.map lowerChar)).mp hsub⟩
      · intro _
        rfl
    · rw [if_neg ha]
      by_cases hi : (p.recaptchaIframe || p.turnstileIframe) = true
      · rw [if_pos hi]
        constructor
        · intro _
          refine ⟨html, rfl, Or.inr ?_⟩
          rw [Bool.or_eq_true] at hi
          exact hi
        · intro _
          rfl
      · rw [if_neg hi]
        constructor
        · intro hcontra
          exact absurd hcontra (by decide)
        · rintro ⟨h, hh, hcase⟩
          rcases hcase with htrig | hifr
          · exfalso
            apply ha
            rw [List.any_eq_true]
            obtain ⟨t, ht, hsub⟩ := htrig
            rw [← hh] at hsub
            exact ⟨t, ht, (containsSub_iff t (html.map lowerChar)).mpr hsub⟩
          · exfalso
            apply hi
            rw [Bool.or_eq_true]
            exact hifr

/-- C7: the output file of a DOI `d` is named by the sanitized DOI plus
`.pdf`: sanitization maps each of the nine characters to an underscore and
leaves every other character unchanged, so the filename contains none of
those characters and is exactly 4 characters longer than `d`; sanitizing
`d + ".pdf"` (as the requests-based script does) gives the same name. -/
theorem c7_doi_filename_sanitization (d : Content) :
    (∀ ch ∈ sanitize d ++ ".pdf".data, ch ∉ bannedChars) ∧
    (sanitize d ++ ".pdf".data).length = d.length + 4 ∧
    (∀ i, i < d.length →
      (sanitize d).getD i ' ' =
        (if d.getD i ' ' ∈ bannedChars then '_' else d.getD i ' ')) ∧
    sanitize (d ++ ".pdf".data) = sanitize d ++ ".pdf".data := by
  refine ⟨?_, ?_, ?_, ?_⟩
  · intro ch hch
    rcases List.mem_append.mp hch with h | h
    · rw [sanitize] at h
      obtain ⟨c0, _, hEq⟩ := List.mem_map.mp h
      rw [← hEq, sanitizeChar]
      by_cases hc : c0 ∈ bannedChars
      · rw [if_pos hc]
        decide
      · rw [if_neg hc]
        exact hc
    · have : ch = '.' ∨ ch = 'p' ∨ ch = 'd' ∨ ch = 'f' := by
        simpa using h
      rcases this with h1 | h1 | h1 | h1 <;> rw [h1] <;> decide
  · rw [List.length_append, sanitize, List.length_map]
    rfl
  · intro i hi
    rcases hx : d[i]? with _ | c0
    · rw [List.getElem?_eq_none_iff] at hx
      omega
    · rw [sanitize, List.getD_eq_getElem?_getD, List.getD_eq_getElem?_getD,
        List.getElem?_map, hx]
      rfl
  · rw [sanitize, sanitize, List.map_append]
    congr 1

theorem c7_doi_filename_sanitization_witness :
    (sanitize sampleDoi ++ ".pdf".data).length = sampleDoi.length + 4 ∧
    (sanitize sampleDoi).getD 7 ' ' =
      (if sampleDoi.getD 7 ' ' ∈ bannedChars then '_' else sampleDoi.getD 7 ' ') ∧
    '.' ∉ bannedChars := by
  have h := c7_doi_filename_sanitization sampleDoi
  exact ⟨h.2.1, h.2.2.1 7 (by decide), h.1 '.' (by decide)⟩

/-- C9: when the head bytes fail the PDF test, `check_pdf_valid` deletes the
file before returning `False`; consequently a `failed` verdict of
`download_one` leaves no file at the output path — an invalid HTML artifact
is never left behind under the DOI's output filename. -/
theorem c9_no_artifact_on_failure :
    (∀ hb (c : Content), Curl.headOk (c.take hb) = false →
      Curl.check_pdf_valid hb (some c) = (false, none)) ∧
    (∀ hb idx (doi : Content) (init : Option Content) (fetch : Nat → Option Content),
      (Curl.download_one hb idx doi init fetch).row.status = "failed" →
      (Curl.download_one hb idx doi init fetch).file = none) := by
  constructor
  · intro hb c h
    simp [Curl.check_pdf_valid, h]
  · intro hb idx doi init fetch
    exact Curl.download_one_failed_file hb idx doi init fetch

theorem c9_no_artifact_on_failure_witness :
    Curl.check_pdf_valid 100 (some "<html>Access Denied".data) = (false, none) ∧
    (Curl.download_one 100 3 sampleDoi none sampleHtmlFetch).file = none := by
  exact ⟨c9_no_artifact_on_failure.1 100 "<html>Access Denied".data (by decide),
    c9_no_artifact_on_failure.2 100 3 sampleDoi none sampleHtmlFetch (by decide)⟩

/-- C10: the metadata tables written by the parse steps keep DOI values
unique: a row is in the deduplicated table exactly when it is the first row
of the input carrying its `doi` value, and the table's `doi` column has no
duplicates. -/
theorem c10_doi_dedup_first_occurrence (rows : List Parse.Row) :
    (∀ r : Parse.Row,
      r ∈ Parse.drop_duplicates_doi rows ↔
        rows.find? (fun x => x.doi == r.doi) = some r) ∧
    ((Parse.drop_duplicates_doi rows).map Parse.Row.doi).Nodup := by
  constructor
  · intro r
    rw [Parse.drop_duplicates_doi, Parse.mem_dedupGo]
    simp
  · exact (Parse.nodup_dedupGo rows []).1

/-- C8: on a non-empty sorted listing of `n` PDF files the folder-split
step is a partition into folders 1..10: the files are kept exactly and in
order, the folder of the `i`-th file is `min(i / ceil(n/10), 9) + 1` — i.e.
consecutive blocks of the sorted order — every folder number lies between 1
and 10, and no folder receives more than `ceil(n/10)` files. -/
theorem c8_split_partition (files : List String) (hne : files ≠ []) :
    ((Split.split_pdf_folders files).map Prod.fst = files) ∧
    ((Split.split_pdf_folders files).map Prod.snd =
      (List.range files.length).map
        (fun i => min (i / Split.perPart files.length) 9 + 1)) ∧
    (∀ pr ∈ Split.split_pdf_folders files, 1 ≤ pr.2 ∧ pr.2 ≤ 10) ∧
    (∀ k : Nat, (Split.split_pdf_folders files).countP (fun pr => pr.2 == k) ≤
      Split.perPart files.length) := by
  have hn : 1 ≤ files.length := by
    cases files with
    | nil => exact absurd rfl hne
    | cons a l => simp
  set p := Split.perPart files.length with hpdef
  have hp : 0 < p := by
    rw [hpdef, Split.perPart, Split.NUM_PARTS]
    omega
  have h10p : files.length ≤ 10 * p := by
    rw [hpdef, Split.perPart, Split.NUM_PARTS]
    omega
  have hfst : (Split.split_pdf_folders files).map Prod.fst = files := by
    rw [Split.split_pdf_folders]
    exact Split.assignLoop_map_fst _ files 1 0
  have hsnd0 := Split.assignLoop_map_snd p hp files 0 1 0
    (fun _ => by constructor <;> simp [Nat.zero_div, Nat.zero_mod])
    (fun hcontra => by rw [Nat.zero_div] at hcontra; omega)
  have hsnd : (Split.split_pdf_folders files).map Prod.snd =
      (List.range files.length).map (fun i => min (i / p) 9 + 1) := by
    rw [Split.split_pdf_folders, hsnd0]
    exact List.map_congr_left fun i _ => by rw [Nat.zero_add]
  refine ⟨hfst, hsnd, ?_, ?_⟩
  · intro pr hpr
    have hmem : pr.2 ∈ (Split.split_pdf_folders files).map Prod.snd :=
      List.mem_map_of_mem Prod.snd hpr
    rw [hsnd] at hmem
    obtain ⟨i, _, hEq⟩ := List.mem_map.mp hmem
    have hEq' : min (i / p) 9 + 1 = pr.2 := hEq
    constructor
    · rw [← hEq']
      exact Nat.succ_le_succ (Nat.zero_le _)
    · rw [← hEq']
      exact Nat.add_le_add_right (Nat.min_le_right _ _) 1
  · intro k
    have hcm : (Split.split_pdf_folders files).countP (fun pr => pr.2 == k)
        = (List.range files.length).countP (fun i => (min (i / p) 9 + 1) == k) := by
      have h1 : ((Split.split_pdf_folders files).map Prod.snd).countP (fun x => x == k)
          = (Split.split_pdf_folders files).countP (fun pr => pr.2 == k) := by
        rw [List.countP_map]
        rfl
      have h2 : ((List.range files.length).map (fun i => min (i / p) 9 + 1)).countP
            (fun x => x == k)
          = (List.range files.length).countP (fun i => (min (i / p) 9 + 1) == k) := by
        rw [List.countP_map]
        rfl
      rw [← h1, hsnd, h2]
    rw [hcm]
    by_cases hk : 1 ≤ k ∧ k ≤ 9
    · obtain ⟨hk1, hk9⟩ := hk
      have hkp : k * p = (k - 1) * p + p := by
        conv_lhs => rw [show k = k - 1 + 1 by omega]
        rw [Nat.succ_mul]
      refine le_trans
        (Split.countP_range_le _ files.length ((k - 1) * p) ((k - 1) * p + p) ?_) (by omega)
      intro i hi hq
      rw [beq_iff_eq] at hq
      have hdiv : i / p = k - 1 := by
        rcases Nat.le_total (i / p) 9 with hle | hge
        · rw [Nat.min_eq_left hle] at hq
          omega
        · rw [Nat.min_eq_right hge] at hq
          omega
      constructor
      · exact (Nat.le_div_iff_mul_le hp).mp (by omega)
      · have hlt : i < k * p := (Nat.div_lt_iff_lt_mul hp).mp (by omega)
        omega
    · by_cases hk10 : k = 10
      · subst hk10
        refine le_trans
          (Split.countP_range_le _ files.length (9 * p) (10 * p) ?_) (by omega)
        intro i hi hq
        rw [beq_iff_eq] at hq
        have hdiv : 9 ≤ i / p := by
          rcases Nat.le_total (i / p) 9 with hle | hge
          · rw [Nat.min_eq_left hle] at hq
            omega
          · exact hge
        constructor
        · exact (Nat.le_div_iff_mul_le hp).mp hdiv
        · omega
      · refine le_trans (Split.countP_range_le _ files.length 0 p ?_) (by omega)
        intro i hi hq
        rw [beq_iff_eq] at hq
        have hk1 : 1 ≤ k := by
          rw [← hq]
          exact Nat.succ_le_succ (Nat.zero_le _)
        have hkle : k ≤ 10 := by
          rw [← hq]
          exact Nat.add_le_add_right (Nat.min_le_right _ _) 1
        exfalso
        omega

theorem c8_split_partition_witness :
    (Split.split_pdf_folders sampleFiles).map Prod.fst = sampleFiles :=
  (c8_split_partition sampleFiles (by decide)).1
